import Mathlib

/-!
Verification development for the escalation coordination engine:
a shallow embedding of the HelpRequest state machine, the knowledge-base
lookup, the response cache, the delivery dedup ledgers, the notification
dispatcher and the timeout worker, together with proofs about them.

Timestamps are modelled as natural numbers (milliseconds since epoch).
JavaScript `Date.now()` arithmetic is nonnegative in every situation the
theorems touch, and natural-number truncated subtraction agrees with the
JS comparisons in each use site (noted at each definition).
-/

/-- Lifecycle status of a help request (the `HelpRequestStatus` enum). -/
inductive HelpRequestStatus where
  | pending
  | resolved
  | unresolved
deriving DecidableEq, Repr

/-- A row of the `HelpRequest` table. -/
structure HelpRequest where
  id : String
  question : String
  callerId : String
  status : HelpRequestStatus
  createdAt : Nat
  resolvedAt : Option Nat
  supervisorResponse : Option String
  knowledgeBaseEntryId : Option String
deriving DecidableEq, Repr

/-- A row of the `KnowledgeBaseEntry` table. -/
structure KnowledgeBaseEntry where
  id : String
  question : String
  answer : String
  source : String
  createdAt : Nat
deriving DecidableEq, Repr

/-- Whole-system state: the persistent store (requests, knowledge entries,
a fresh-id counter standing in for cuid generation) plus the in-process
mutable maps: the agent service knowledge map, the per-caller dedup ledger
`supervisorResponseCache`, the supervisor service dedup set
`sentSupervisorResponses`, and the route-level `responseCache`. -/
structure SysState where
  requests : List HelpRequest
  kbEntries : List KnowledgeBaseEntry
  nextId : Nat
  knowledgeBase : List (String × String)
  supervisorResponseCache : List (String × String × Nat)
  sentSupervisorResponses : List String
  responseCache : List (String × String × Nat)
deriving DecidableEq, Repr

/-- JS `toLowerCase`, as a structural map over the character list so the
kernel can evaluate it (the built-in `String.toLower` recurses on byte
positions, which blocks kernel reduction). -/
def toLowerStr (s : String) : String := ⟨s.data.map Char.toLower⟩

/-- JS `trim`: drop whitespace from both ends, structurally. -/
def trimStr (s : String) : String :=
  ⟨((s.data.dropWhile Char.isWhitespace).reverse.dropWhile Char.isWhitespace).reverse⟩

/-- JS `startsWith`. -/
def startsWithStr (s p : String) : Bool := List.isPrefixOf p.data s.data

/-- JS `slice(n)` / dropping a prefix of known length. -/
def dropStr (s : String) (n : Nat) : String := ⟨s.data.drop n⟩

/-- Split at every whitespace character (the fragments between consecutive
whitespace characters are empty strings, exactly as with `String.split`). -/
def splitWsAux (cur : List Char) : List Char → List String
  | [] => [⟨cur.reverse⟩]
  | c :: rest =>
    if c.isWhitespace then (⟨cur.reverse⟩ : String) :: splitWsAux [] rest
    else splitWsAux (c :: cur) rest

/-- JS `split(/\s+/)` up to empty fragments, see `keywordsOf`. -/
def splitWs (s : String) : List String := splitWsAux [] s.data

/-- Character-list infix test used to model JS substring search. -/
def charInfixOf (needle : List Char) : List Char → Bool
  | [] => needle.isEmpty
  | c :: rest => List.isPrefixOf needle (c :: rest) || charInfixOf needle rest

/-- Substring test: JS `haystack.includes(needle)`. -/
def containsStr (haystack needle : String) : Bool :=
  charInfixOf needle.toList haystack.toList

/-- Tokenizer used by the fuzzy matcher: `s.split(/\s+/).filter(w => w.length > 3)`.
Splitting at every whitespace character yields extra empty fragments compared
with splitting at whitespace runs, but the length filter removes all of them,
so the resulting token list is identical to the JS list. -/
def keywordsOf (s : String) : List String :=
  (splitWs s).filter (fun w => w.length > 3)

/-- `Math.ceil(n * 0.5)` on a token count. -/
def matchThreshold (n : Nat) : Nat := (n + 1) / 2

/-- Number of incoming keywords that substring-overlap (either direction)
some keyword of the stored question. -/
def keywordOverlapCount (keywords entryKeywords : List String) : Nat :=
  (keywords.filter (fun k =>
    entryKeywords.any (fun ek => containsStr ek k || containsStr k ek))).length

/-- Loop body of `AgentService.findSimilarQuestion`: scan entries in store
order; for each entry first try the exact lowercased-question match, then the
keyword-overlap test; the first entry that passes either test wins. -/
def findSimilarQuestionGo (messageLower : String) (keywords : List String) :
    List KnowledgeBaseEntry → Option String
  | [] => none
  | e :: rest =>
    let entryQuestion := toLowerStr e.question
    if entryQuestion == messageLower then
      some e.answer
    else if matchThreshold keywords.length ≤
        keywordOverlapCount keywords (keywordsOf entryQuestion) then
      some e.answer
    else
      findSimilarQuestionGo messageLower keywords rest

/-- `AgentService.findSimilarQuestion(message)` over the stored entry list. -/
def findSimilarQuestion (message : String) (entries : List KnowledgeBaseEntry) :
    Option String :=
  findSimilarQuestionGo (toLowerStr message) (keywordsOf (toLowerStr message)) entries

/-- Characterization used by the amended C6: an entry matches when its
question equals the message case-insensitively or the keyword overlap of the
message against that question reaches the ceil-half threshold. -/
def matchesEntry (message : String) (e : KnowledgeBaseEntry) : Bool :=
  toLowerStr e.question == toLowerStr message ||
  matchThreshold (keywordsOf (toLowerStr message)).length ≤
    keywordOverlapCount (keywordsOf (toLowerStr message)) (keywordsOf (toLowerStr e.question))

/-- `CACHE.SUPERVISOR_RESPONSE_TTL` = five minutes in milliseconds. -/
def SUPERVISOR_RESPONSE_TTL : Nat := 5 * 60 * 1000

/-- Route-level response cache read (`responseCache.get(callerId)` followed by
the freshness test `Date.now() - cachedResponse.timestamp <= CACHE_TTL`).
The map is modelled as an association list whose most recent write is at the
head, so `find?` returns the current binding. -/
def responseCacheGet (cache : List (String × String × Nat)) (callerId : String)
    (now : Nat) : Option String :=
  match cache.find? (fun e => e.1 == callerId) with
  | some e => if now - e.2.2 ≤ SUPERVISOR_RESPONSE_TTL then some e.2.1 else none
  | none => none

/-- `MESSAGES.WAITING_FOR_SUPERVISOR`. -/
def WAITING_FOR_SUPERVISOR : String :=
  "I\x27m still waiting for my supervisor to answer your question. I\x27ll let you know as soon as I hear back."

/-- `MESSAGES.NO_SUPERVISOR_RESPONSE`. -/
def NO_SUPERVISOR_RESPONSE : String :=
  "I haven\x27t received any supervisor responses yet."

/-- `MESSAGES.CHECKING_WITH_SUPERVISOR`. -/
def CHECKING_WITH_SUPERVISOR : String :=
  "Let me check with my supervisor about "

/-- `MESSAGES.SUPERVISOR_RESPONSE`. -/
def SUPERVISOR_RESPONSE_TEXT : String :=
  "I\x27ve consulted with my supervisor and they say: "

/-- `COMMANDS.CHECK_SUPERVISOR_RESPONSES`. -/
def CHECK_SUPERVISOR_RESPONSES : String := "__CHECK_SUPERVISOR_RESPONSES__"

/-- `isSpecialMessage` from the agent service: the polling/status-check
detector (exact phrases plus the supervisor/replied-responded-answer
heuristic). The leading JS falsiness test `if (!message)` is the empty-string
case. -/
def isSpecialMessage (m : String) : Bool :=
  if m == "" then false
  else
    m == CHECK_SUPERVISOR_RESPONSES ||
    m == "Has my supervisor replied with an answer yet?" ||
    m == "What did my supervisor say?" ||
    m == "What was the supervisor\x27s response?" ||
    m == "Did the supervisor answer my question?" ||
    (containsStr (toLowerStr m) "supervisor" &&
      (containsStr (toLowerStr m) "replied" ||
       containsStr (toLowerStr m) "responded" ||
       containsStr (toLowerStr m) "answer"))

/-- The second status-check detector inside `handleMessage` (the three
`toLowerStr messageCase().includes(...)` phrases). -/
def isSupervisorResponseQuery (m : String) : Bool :=
  containsStr (toLowerStr m) "has my supervisor responded" ||
  containsStr (toLowerStr m) "what did my supervisor say" ||
  containsStr (toLowerStr m) "any response from supervisor"

/-- `getCallerId(helpRequest)`: `helpRequest.callerId || 'unknown'`. -/
def getCallerId (r : HelpRequest) : String :=
  if r.callerId == "" then "unknown" else r.callerId

/-- In-memory knowledge map read (`this.knowledgeBase.get(key)`), newest
binding first. -/
def knowledgeBaseGet (kb : List (String × String)) (key : String) : Option String :=
  (kb.find? (fun e => e.1 == key)).map (fun e => e.2)

/-- `hasSentSupervisorResponse(callerId, responseId)` over the dedup ledger. -/
def hasSentSupervisorResponse (st : SysState) (callerId responseId : String) : Bool :=
  st.supervisorResponseCache.any (fun e => e.1 == callerId && e.2.1 == responseId)

/-- `markSupervisorResponseSent(callerId, responseId)` stamping `Date.now()`. -/
def markSupervisorResponseSent (st : SysState) (callerId responseId : String)
    (now : Nat) : SysState :=
  { st with supervisorResponseCache := (callerId, responseId, now) :: st.supervisorResponseCache }

/-- Fold step shared by the `orderBy resolvedAt desc` + `findFirst` queries:
keep the row with the greatest `resolvedAt` among those passing the filter.
Ties keep the earlier row, standing in for unspecified database tie order. -/
def bestByResolvedAt (cond : HelpRequest → Bool) (acc : Option HelpRequest)
    (r : HelpRequest) : Option HelpRequest :=
  if cond r then
    match acc with
    | none => some r
    | some b => if b.resolvedAt.getD 0 < r.resolvedAt.getD 0 then some r else some b
  else acc

/-- The prisma query `findFirst { callerId, status: resolved,
supervisorResponse ≠ null, orderBy resolvedAt desc }`: the stored request for
this caller with the greatest `resolvedAt` among resolved requests carrying an
answer. -/
def latestAnsweredResolvedFor (reqs : List HelpRequest) (callerId : String) :
    Option HelpRequest :=
  reqs.foldl (bestByResolvedAt (fun r =>
    r.callerId == callerId && r.status == .resolved && r.supervisorResponse.isSome)) none

/-- Same query restricted by `resolvedAt: { gte: Date.now() - 60*1000 }` (the
ambient one-minute recency window). Truncated subtraction matches the JS
comparison: for `now < 60000` the JS bound is negative and every timestamp
passes, as does the clamped bound `0`. -/
def recentAnsweredResolvedFor (reqs : List HelpRequest) (callerId : String)
    (now : Nat) : Option HelpRequest :=
  reqs.foldl (bestByResolvedAt (fun r =>
    r.callerId == callerId && r.status == .resolved && r.supervisorResponse.isSome
      && now - 60000 ≤ r.resolvedAt.getD 0)) none

/-- `findFirst { callerId, status: pending, question: message }`: the
exact-text pending-duplicate probe, in store order. -/
def pendingExactFor (reqs : List HelpRequest) (callerId question : String) :
    Option HelpRequest :=
  reqs.find? (fun r =>
    r.callerId == callerId && r.status == .pending && r.question == question)

/-- Number of pending requests with exactly this caller and question text. -/
def countPendingExact (reqs : List HelpRequest) (callerId question : String) : Nat :=
  (reqs.filter (fun r =>
    r.callerId == callerId && r.status == .pending && r.question == question)).length

/-- In-place update of every row with the given id
(`prisma.helpRequest.update({ where: { id } })`; ids are unique in the
store, so at most one row changes). -/
def updateById (reqs : List HelpRequest) (id : String)
    (g : HelpRequest → HelpRequest) : List HelpRequest :=
  reqs.map (fun rr => if rr.id == id then g rr else rr)

/-- Fresh help-request id from the counter standing in for cuid generation. -/
def freshRequestId (n : Nat) : String := "hr" ++ toString n

/-- Fresh knowledge-base-entry id. -/
def freshKbId (n : Nat) : String := "kb" ++ toString n

/-- Events signalled on the process-wide emitter. -/
inductive AppEvent where
  | requestCreated (id question callerId : String)
  | requestResolved (id question callerId answer : String)
  | requestExpired (id question callerId : String)
deriving DecidableEq, Repr

/-- `createHelpRequestData` + `prisma.helpRequest.create`: build the pending
row (callerId trimmed) and append it to the store. Returns the new row. -/
def insertHelpRequest (st : SysState) (question callerId : String) (now : Nat) :
    SysState × HelpRequest :=
  let r : HelpRequest :=
    { id := freshRequestId st.nextId
      question := question
      callerId := trimStr callerId
      status := .pending
      createdAt := now
      resolvedAt := none
      supervisorResponse := none
      knowledgeBaseEntryId := none }
  ({ st with requests := st.requests ++ [r], nextId := st.nextId + 1 }, r)

/-- `helpRequestModel.create(data)`: insert the pending row and emit
`HELP_REQUEST_CREATED` carrying the id and the untrimmed argument callerId. -/
def helpRequestCreate (st : SysState) (question callerId : String) (now : Nat) :
    SysState × HelpRequest × AppEvent :=
  let (st', r) := insertHelpRequest st question callerId now
  (st', r, .requestCreated r.id question callerId)

/-- `helpRequestModel.markAsExpired(id)`: no-op unless the row exists and is
still pending; otherwise set status unresolved and stamp `resolvedAt`,
emitting `HELP_REQUEST_EXPIRED`. -/
def markAsExpired (st : SysState) (id : String) (now : Nat) :
    SysState × Option AppEvent :=
  match st.requests.find? (fun r => r.id == id) with
  | none => (st, none)
  | some r =>
    if r.status == .pending then
      let st' := { st with requests := updateById st.requests id (fun rr =>
        { rr with status := .unresolved, resolvedAt := some now }) }
      (st', some (.requestExpired id r.question (getCallerId r)))
    else (st, none)

/-- Outcome of `SupervisorService.resolveHelpRequest`. -/
inductive ResolveOutcome where
  | alreadyProcessed
  | notFound
  | alreadyResolved
  | resolvedOk
deriving DecidableEq, Repr

/-- `SupervisorService.resolveHelpRequest(id, answer)`: skip when the dedup
set already holds the id; throw `Request not found` when the id is unknown;
return the `alreadyResolved` marker (adding the id to the dedup set) when the
row is already resolved; otherwise set status/resolvedAt/supervisorResponse,
create the linked supervisor-sourced knowledge entry, and write the back-link.
The `HELP_REQUEST_RESOLVED` emission belongs to the decoupled dispatcher,
modelled separately. -/
def resolveHelpRequest (st : SysState) (id answer : String) (now : Nat) :
    SysState × ResolveOutcome :=
  if st.sentSupervisorResponses.contains id then (st, .alreadyProcessed)
  else
    match st.requests.find? (fun r => r.id == id) with
    | none => (st, .notFound)
    | some r =>
      if r.status == .resolved then
        ({ st with sentSupervisorResponses := id :: st.sentSupervisorResponses },
          .alreadyResolved)
      else
        let st1 := { st with requests := updateById st.requests id (fun rr =>
          { rr with
              status := .resolved
              resolvedAt := some now
              supervisorResponse := some answer }) }
        let kbId := freshKbId st1.nextId
        let entry : KnowledgeBaseEntry :=
          { id := kbId, question := r.question, answer := answer,
            source := "supervisor", createdAt := now }
        let st2 := { st1 with
            kbEntries := st1.kbEntries ++ [entry]
            nextId := st1.nextId + 1 }
        let st3 := { st2 with requests := updateById st2.requests id (fun rr =>
          { rr with knowledgeBaseEntryId := some kbId }) }
        (st3, .resolvedOk)

/-- Status of the first stored row with this id. -/
def statusOf (reqs : List HelpRequest) (id : String) : Option HelpRequestStatus :=
  (reqs.find? (fun r => r.id == id)).map (fun r => r.status)

/-- Stored supervisor answer of the first row with this id. -/
def answerOf (reqs : List HelpRequest) (id : String) : Option String :=
  (reqs.find? (fun r => r.id == id)).bind (fun r => r.supervisorResponse)

/-- Stored resolution timestamp of the first row with this id. -/
def resolvedAtOf (reqs : List HelpRequest) (id : String) : Option Nat :=
  (reqs.find? (fun r => r.id == id)).bind (fun r => r.resolvedAt)

/-- Result of one `AgentService.handleMessage` call: the new state, the reply
text, and — when the reply carried a full supervisor answer — the caller and
help-request id it delivered. -/
structure MsgResult where
  state : SysState
  reply : String
  delivered : Option (String × String)
deriving DecidableEq, Repr

/-- Branches of `handleMessage` after the three supervisor-response detection
paths: in-memory knowledge map, database fuzzy lookup (merging a hit into the
memory map), the pending-duplicate probe and help-request creation, and the
fallback replies. `callerId` here is `none` when the JS argument was absent
or falsy. -/
def knowledgeLookupAndEscalate (st : SysState) (now : Nat) (message : String)
    (callerId : Option String) : MsgResult :=
  match knowledgeBaseGet st.knowledgeBase (toLowerStr message) with
  | some a => ⟨st, a, none⟩
  | none =>
    match findSimilarQuestion message st.kbEntries with
    | some a =>
      ⟨{ st with knowledgeBase := (toLowerStr message, a) :: st.knowledgeBase }, a, none⟩
    | none =>
      match callerId with
      | some c =>
        if !(isSpecialMessage message) then
          match pendingExactFor st.requests (trimStr c) message with
          | some _ => ⟨st, WAITING_FOR_SUPERVISOR, none⟩
          | none =>
            let (st', _) := insertHelpRequest st message c now
            ⟨st', CHECKING_WITH_SUPERVISOR ++ "\x22" ++ message ++ "\x22 and get back to you.", none⟩
        else ⟨st, WAITING_FOR_SUPERVISOR, none⟩
      | none =>
        ⟨st, "I\x27m sorry, I don\x27t know the answer to that. Please try asking something else.", none⟩

/-- `AgentService.handleMessage(roomName, message, callerId)`. A JS falsy
callerId (absent or empty) disables every caller-dependent branch, so it is
normalized to `none` up front. Database queries use the trimmed caller id
(`formatCallerId`) while the dedup ledger is keyed by the raw caller id,
exactly as in the source. The ten-minute and one-minute recency windows and
the short already-sent confirmations follow the three detection paths. -/
def handleMessage (st : SysState) (now : Nat) (message : String)
    (callerId : Option String) : MsgResult :=
  let cid : Option String :=
    match callerId with
    | some c => if c == "" then none else some c
    | none => none
  match cid with
  | some c =>
    if message == CHECK_SUPERVISOR_RESPONSES then
      match latestAnsweredResolvedFor st.requests (trimStr c) with
      | some hr =>
        match hr.supervisorResponse with
        | some ans =>
          if now - hr.resolvedAt.getD 0 < 10 * 60 * 1000 then
            if hasSentSupervisorResponse st c hr.id then
              ⟨st, "Yes, your supervisor has responded. The message has already been sent to you.", none⟩
            else
              ⟨markSupervisorResponseSent st c hr.id now,
                SUPERVISOR_RESPONSE_TEXT ++ ans, some (c, hr.id)⟩
          else ⟨st, NO_SUPERVISOR_RESPONSE, none⟩
        | none => ⟨st, NO_SUPERVISOR_RESPONSE, none⟩
      | none => ⟨st, NO_SUPERVISOR_RESPONSE, none⟩
    else if isSupervisorResponseQuery message then
      match latestAnsweredResolvedFor st.requests (trimStr c) with
      | some hr =>
        match hr.supervisorResponse with
        | some ans =>
          if now - hr.resolvedAt.getD 0 < 10 * 60 * 1000 then
            if hasSentSupervisorResponse st c hr.id then
              ⟨st, "Yes, your supervisor has responded. I\x27ve already sent you their response.", none⟩
            else
              ⟨markSupervisorResponseSent st c hr.id now,
                SUPERVISOR_RESPONSE_TEXT ++ ans, some (c, hr.id)⟩
          else ⟨st, "I haven\x27t received any supervisor responses yet.", none⟩
        | none => ⟨st, "I haven\x27t received any supervisor responses yet.", none⟩
      | none => ⟨st, "I haven\x27t received any supervisor responses yet.", none⟩
    else
      match recentAnsweredResolvedFor st.requests (trimStr c) now with
      | some hr =>
        match hr.supervisorResponse with
        | some ans =>
          if !(hasSentSupervisorResponse st c hr.id) then
            ⟨markSupervisorResponseSent st c hr.id now,
              SUPERVISOR_RESPONSE_TEXT ++ ans, some (c, hr.id)⟩
          else knowledgeLookupAndEscalate st now message (some c)
        | none => knowledgeLookupAndEscalate st now message (some c)
      | none => knowledgeLookupAndEscalate st now message (some c)
  | none => knowledgeLookupAndEscalate st now message none

/-- `SupervisorService.handleHelpRequestResolved(event)` with an explicit push
outcome for `publishDataToRoom`: skip when the dedup set holds the id;
otherwise, for a truthy non-`'unknown'` caller, add the id to the set and push
the full answer; when the push succeeds the `SUPERVISOR_RESPONSE_SENT` event
marks the agent-side ledger. Returns whether a push was attempted. -/
def handleHelpRequestResolved (st : SysState) (id callerId answer : String)
    (pushOk : Bool) (now : Nat) : SysState × Bool :=
  if st.sentSupervisorResponses.contains id then (st, false)
  else if callerId != "" && callerId != "unknown" then
    let st1 := { st with sentSupervisorResponses := id :: st.sentSupervisorResponses }
    if pushOk then (markSupervisorResponseSent st1 callerId id now, true)
    else (st1, true)
  else (st, false)

/-- Result of the `POST /supervisor-response` poll route: the full answer
text when one was returned (from cache or store), and whether it came from
the cache. -/
structure PollRouteResult where
  state : SysState
  fullAnswer : Option String
  fromCache : Bool
deriving DecidableEq, Repr

/-- The `POST /supervisor-response` route of the supervisor router: serve the
response cache when the entry is at most TTL old; otherwise strip a
`caller-` room prefix from the caller id, query the newest answered resolved
request for the trimmed id, cache its answer under the original caller id and
return it; with no dedup-ledger consultation anywhere. -/
def supervisorResponseRoute (st : SysState) (callerId : String) (now : Nat) :
    PollRouteResult :=
  match responseCacheGet st.responseCache callerId now with
  | some r => ⟨st, some r, true⟩
  | none =>
    let actual := if startsWithStr callerId "caller-" then dropStr callerId 7 else callerId
    match latestAnsweredResolvedFor st.requests (trimStr actual) with
    | some hr =>
      match hr.supervisorResponse with
      | some ans =>
        ⟨{ st with responseCache := (callerId, ans, now) :: st.responseCache },
          some ans, false⟩
      | none => ⟨st, none, false⟩
    | none => ⟨st, none, false⟩

/-- `HELP_REQUEST_TIMEOUT_MINUTES * 60 * 1000` of the timeout worker. -/
def HELP_REQUEST_TIMEOUT_MS : Nat := 30 * 60 * 1000

/-- The stale-request selection of `checkAndProcessExpiredRequests`:
ids of pending requests with `createdAt < Date.now() - TIMEOUT`. Truncated
subtraction agrees with the JS comparison: a negative JS cutoff admits no
request, and neither does the clamped cutoff `0`. -/
def staleRequestIds (reqs : List HelpRequest) (now : Nat) : List String :=
  ((reqs.filter (fun r =>
    r.status == .pending && r.createdAt < now - HELP_REQUEST_TIMEOUT_MS)).map
      (fun r => r.id))

/-- The sweep loop over the stale ids. `fails` models the set of requests
whose store update throws: the whole loop body sits inside one try/catch, so
the first throwing update ends the sweep (the error is only logged and the
function returns normally). -/
def expireLoop (fails : List String) (now : Nat) :
    List String → SysState → SysState
  | [], st => st
  | id :: rest, st =>
    if fails.contains id then st
    else expireLoop fails now rest (markAsExpired st id now).1

/-- `checkAndProcessExpiredRequests` of the timeout worker: select the stale
pending requests, then mark each as expired in order until the first failure
(if any). -/
def checkAndProcessExpiredRequests (fails : List String) (st : SysState)
    (now : Nat) : SysState :=
  expireLoop fails now (staleRequestIds st.requests now) st

/-- One step of a sequential system trace: an incoming message, a
`HELP_REQUEST_RESOLVED` event reaching the dispatcher (with its push
outcome), or a reviewer calling `resolveHelpRequest`. -/
inductive TraceStep where
  | stepMessage (now : Nat) (message : String) (callerId : Option String)
  | stepResolvedEvent (now : Nat) (id callerId answer : String) (pushOk : Bool)
  | stepResolve (now : Nat) (id answer : String)
deriving DecidableEq, Repr

/-- Run one trace step, reporting which id the dispatcher pushed (if any) and
which (caller, id) pair the message path fully delivered (if any). -/
def runStep (st : SysState) : TraceStep → SysState × Option String × Option (String × String)
  | .stepMessage now m c =>
    let r := handleMessage st now m c
    (r.state, none, r.delivered)
  | .stepResolvedEvent now id c ans ok =>
    let (st', attempted) := handleHelpRequestResolved st id c ans ok now
    (st', if attempted then some id else none, none)
  | .stepResolve now id ans =>
    ((resolveHelpRequest st id ans now).1, none, none)

/-- Number of dispatcher pushes for a fixed help-request id along a trace. -/
def countPushes (id0 : String) (st : SysState) : List TraceStep → Nat
  | [] => 0
  | s :: rest =>
    let (st', p, _) := runStep st s
    (if p == some id0 then 1 else 0) + countPushes id0 st' rest

/-- Number of full message-path deliveries of a fixed (caller, id) pair along
a trace. -/
def countAgentDeliveries (c0 id0 : String) (st : SysState) : List TraceStep → Nat
  | [] => 0
  | s :: rest =>
    let (st', _, d) := runStep st s
    (if d == some (c0, id0) then 1 else 0) + countAgentDeliveries c0 id0 st' rest



/-- A reviewer/worker operation on the state machine: a resolve call or an
expiry attempt. -/
inductive HROp where
  | opResolve (id answer : String) (now : Nat)
  | opExpire (id : String) (now : Nat)
deriving DecidableEq, Repr

/-- Apply one state-machine operation. -/
def applyOp (st : SysState) : HROp → SysState
  | .opResolve id ans now => (resolveHelpRequest st id ans now).1
  | .opExpire id now => (markAsExpired st id now).1

/-- Apply a sequence of state-machine operations. -/
def applyOps (st : SysState) (ops : List HROp) : SysState :=
  ops.foldl applyOp st

/-- `DEFAULT_TIMEOUT_MINUTES` of `startTimeoutWorker`; the env override
`HELP_REQUEST_TIMEOUT_MINUTES` is set nowhere in the repository
(`parseInt('') || 5` yields the default), so the running worker uses 5. -/
def DEFAULT_TIMEOUT_MINUTES : Nat := 5

/-- Stale selection of a `startTimeoutWorker` tick: pending rows with
`createdAt < Date.now() - timeoutMinutes * 60 * 1000` (strict), the same
truncated-subtraction reading as `staleRequestIds`. -/
def workerStaleIds (timeoutMinutes : Nat) (reqs : List HelpRequest) (now : Nat) :
    List String :=
  ((reqs.filter (fun r =>
    r.status == .pending && r.createdAt < now - timeoutMinutes * 60 * 1000)).map
      (fun r => r.id))

/-- The raw `prisma.helpRequest.update` inside the `startTimeoutWorker` loop:
set status unresolved and stamp `resolvedAt`, with no status re-check and no
event emission (unlike `markAsExpired`). -/
def rawExpire (st : SysState) (id : String) (now : Nat) : SysState :=
  { st with requests := updateById st.requests id (fun rr =>
      { rr with status := .unresolved, resolvedAt := some now }) }

/-- The `startTimeoutWorker` loop over the selected stale rows. Like the
other worker, the whole body sits in one try/catch; failures are modelled
for `checkAndProcessExpiredRequests` and this loop is the failure-free
path. -/
def rawExpireLoop (now : Nat) : List String → SysState → SysState
  | [], st => st
  | id :: rest, st => rawExpireLoop now rest (rawExpire st id now)

/-- One tick of `startTimeoutWorker` (part of the same sources as the
thirty-minute sweep): started by the app with an every-minute interval and
the configured threshold in minutes (default 5). -/
def startTimeoutWorkerTick (timeoutMinutes : Nat) (st : SysState) (now : Nat) :
    SysState :=
  rawExpireLoop now (workerStaleIds timeoutMinutes st.requests now) st

theorem find?_updateById (l : List HelpRequest) (id : String)
    (g : HelpRequest → HelpRequest) (hg : ∀ r, (g r).id = r.id) :
    (updateById l id g).find? (fun r => r.id == id)
      = (l.find? (fun r => r.id == id)).map g := by
  unfold updateById
  rw [List.find?_map]
  have hp : ((fun r : HelpRequest => r.id == id) ∘ fun rr => if rr.id == id then g rr else rr)
      = (fun r : HelpRequest => r.id == id) := by
    funext r
    by_cases hb : r.id = id
    · simp [hb, hg]
    · simp [hb]
  rw [hp]
  cases hf : l.find? (fun r => r.id == id) with
  | none => rfl
  | some r =>
    have hr : r.id = id := by simpa using List.find?_some hf
    show some (if r.id == id then g r else r) = some (g r)
    simp [hr]

theorem find?_updateById_ne (l : List HelpRequest) (id id' : String)
    (g : HelpRequest → HelpRequest) (hg : ∀ r, (g r).id = r.id)
    (h : id ≠ id') :
    (updateById l id' g).find? (fun r => r.id == id)
      = l.find? (fun r => r.id == id) := by
  unfold updateById
  rw [List.find?_map]
  have hp : ((fun r : HelpRequest => r.id == id) ∘ fun rr => if rr.id == id' then g rr else rr)
      = (fun r : HelpRequest => r.id == id) := by
    funext r
    by_cases hb : r.id = id'
    · simp [hb, hg]
    · simp [hb]
  rw [hp]
  cases hf : l.find? (fun r => r.id == id) with
  | none => rfl
  | some r =>
    have hr : r.id = id := by simpa using List.find?_some hf
    have hne : ¬ r.id = id' := by rw [hr]; exact h
    show some (if r.id == id' then g r else r) = some r
    simp [hne]

theorem findSimilarQuestionGo_eq (ml : String) (kw : List String)
    (es : List KnowledgeBaseEntry) :
    findSimilarQuestionGo ml kw es
      = (es.find? (fun e => (toLowerStr e.question == ml) ||
          decide (matchThreshold kw.length ≤
            keywordOverlapCount kw (keywordsOf (toLowerStr e.question))))).map
          (fun e => e.answer) := by
  induction es with
  | nil => rfl
  | cons e rest ih =>
    unfold findSimilarQuestionGo
    simp only [List.find?_cons]
    by_cases h1 : toLowerStr e.question == ml
    · simp [h1]
    · by_cases h2 : matchThreshold kw.length ≤
          keywordOverlapCount kw (keywordsOf (toLowerStr e.question))
      · simp [h1, h2]
      · simp [h1, h2, ih]

/-- Claim C6 (amended): the knowledge lookup scans entries in store order and
returns the answer of the first entry that either equals the message
case-insensitively or reaches the ceil-half keyword-overlap threshold; exact
matching does not take precedence over fuzzy matches of earlier entries. -/
theorem findSimilarQuestionFirstMatch (m : String) (es : List KnowledgeBaseEntry) :
    findSimilarQuestion m es
      = (es.find? (fun e => matchesEntry m e)).map (fun e => e.answer) := by
  unfold findSimilarQuestion
  rw [findSimilarQuestionGo_eq]
  rfl

/-- Claim C6 (counterexample): the claim says an entry whose question equals
the message case-insensitively wins if one exists. Here entry k2 is a
case-insensitive exact match of the message, yet the lookup returns the
answer of the earlier entry k1, which only fuzzy-matches. -/
theorem fuzzyShadowsExactMatch :
    findSimilarQuestion "hello there"
      [⟨"k1", "there hello mate", "A1", "manual", 0⟩,
       ⟨"k2", "hello there", "A2", "manual", 0⟩] = some "A1"
    ∧ (toLowerStr "hello there" == toLowerStr "hello there") = true
    ∧ "A1" ≠ "A2" := by decide

/-- Claim C7 (counterexample): an entry whose age is exactly the five-minute
TTL is returned as a cache hit (the code tests `now - timestamp <= TTL`),
while the claim says it is treated as expired. -/
theorem cacheHitAtExactTTL :
    responseCacheGet [("c1", "ans", 0)] "c1" SUPERVISOR_RESPONSE_TTL = some "ans"
    ∧ SUPERVISOR_RESPONSE_TTL - 0 = SUPERVISOR_RESPONSE_TTL := by decide

/-- Claim C7 (amended): a response-cache lookup returns an answer exactly when
the caller has an entry and its age is at most the TTL; entries strictly
older than the TTL are treated as absent, and the boundary age equal to the
TTL is a hit. -/
theorem cacheHitIffWithinTTL (cache : List (String × String × Nat))
    (c r : String) (now : Nat) :
    responseCacheGet cache c now = some r
      ↔ ∃ e, cache.find? (fun e => e.1 == c) = some e ∧ e.2.1 = r
          ∧ now - e.2.2 ≤ SUPERVISOR_RESPONSE_TTL := by
  unfold responseCacheGet
  cases hf : cache.find? (fun e => e.1 == c) with
  | none => simp
  | some e =>
    by_cases hle : now - e.2.2 ≤ SUPERVISOR_RESPONSE_TTL
    · simp only [hle, if_pos]
      constructor
      · intro h
        refine ⟨e, rfl, ?_, hle⟩
        have : e.2.1 = r := by simpa using h
        exact this
      · rintro ⟨e', he', hr, _⟩
        cases he'
        simp [hr]
    · simp only [hle, if_neg]
      constructor
      · intro h
        cases h
      · rintro ⟨e', he', hr, hle'⟩
        cases he'
        exact absurd hle' hle

/-- Claim C10: when the incoming message has no token longer than three
characters and is not a case-insensitive exact match of any stored question,
the lookup returns the first stored entry's answer, because the required
overlap `ceil(0.5 × 0) = 0` is satisfied vacuously. -/
theorem emptyKeywordsReturnsFirstEntry (m : String) (e : KnowledgeBaseEntry)
    (rest : List KnowledgeBaseEntry)
    (hkw : keywordsOf (toLowerStr m) = [])
    (hne : ∀ x ∈ e :: rest, toLowerStr x.question ≠ toLowerStr m) :
    findSimilarQuestion m (e :: rest) = some e.answer := by
  unfold findSimilarQuestion findSimilarQuestionGo
  have h1 : (toLowerStr e.question == toLowerStr m) = false := by
    simpa using hne e (by simp)
  rw [hkw]
  simp [h1, matchThreshold, keywordOverlapCount]

/-- Witness for C10 at a concrete input: "hi yo" has no token longer than
three characters and matches no stored question exactly. -/
theorem emptyKeywordsReturnsFirstEntryWitness :
    findSimilarQuestion "hi yo"
      [⟨"k1", "what are your hours", "9-5", "manual", 0⟩] = some "9-5" :=
  emptyKeywordsReturnsFirstEntry "hi yo"
    ⟨"k1", "what are your hours", "9-5", "manual", 0⟩ [] (by decide) (by decide)

/-- Claim C5 (counterexample): `helpRequestModel.create` does not reject
duplicates: with an identical pending request already stored for the same
caller and question, calling create inserts a second pending row. -/
theorem createInsertsDuplicatePending :
    countPendingExact
      (helpRequestCreate
        ⟨[⟨"r1", "q", "c1", .pending, 0, none, none, none⟩], [], 5, [], [], [], []⟩
        "q" "c1" 7).1.requests "c1" "q" = 2 := by decide

/-- Claim C5 (amended): `create` unconditionally inserts a new pending record
(callerId trimmed) and signals `RequestCreated`; duplicate suppression for
identical pending (subject, requester) pairs is performed by the Escalation
Coordinator before calling create, not by create itself. -/
theorem createAlwaysInserts (st : SysState) (q c : String) (now : Nat) :
    (helpRequestCreate st q c now).1.requests
        = st.requests ++ [(helpRequestCreate st q c now).2.1]
    ∧ (helpRequestCreate st q c now).2.1.status = .pending
    ∧ (helpRequestCreate st q c now).2.1.question = q
    ∧ (helpRequestCreate st q c now).2.1.callerId = trimStr c
    ∧ (helpRequestCreate st q c now).2.1.createdAt = now
    ∧ (helpRequestCreate st q c now).2.2
        = .requestCreated (freshRequestId st.nextId) q c := by
  unfold helpRequestCreate insertHelpRequest
  exact ⟨rfl, rfl, rfl, rfl, rfl, rfl⟩

/-- Claim C3 (counterexample): `unresolved` is not terminal. On a store whose
only request is unresolved (expired), `resolveHelpRequest` moves it to
resolved, contradicting the claim that a request in a terminal state never
changes status again. -/
theorem unresolvedBecomesResolved :
    statusOf [(⟨"r1", "q", "c1", .unresolved, 0, some 4, none, none⟩ : HelpRequest)] "r1"
        = some .unresolved
    ∧ statusOf (resolveHelpRequest
        ⟨[⟨"r1", "q", "c1", .unresolved, 0, some 4, none, none⟩], [], 5, [], [], [], []⟩
        "r1" "late" 99).1.requests "r1" = some .resolved := by decide

/-- Claim C8 (counterexample): a sweep running exactly at T plus thirty
minutes does not expire a pending request created at T, because the worker
selects `createdAt < now - timeout` strictly; one millisecond later the same
sweep does expire it. The claim requires expiry at or after the boundary. -/
theorem sweepAtExactBoundaryNoExpire :
    statusOf (checkAndProcessExpiredRequests []
      ⟨[⟨"r1", "q", "c1", .pending, 0, none, none, none⟩], [], 5, [], [], [], []⟩
      HELP_REQUEST_TIMEOUT_MS).requests "r1" = some .pending
    ∧ statusOf (checkAndProcessExpiredRequests []
      ⟨[⟨"r1", "q", "c1", .pending, 0, none, none, none⟩], [], 5, [], [], [], []⟩
      (HELP_REQUEST_TIMEOUT_MS + 1)).requests "r1" = some .unresolved := by decide

/-- Claim C9 (counterexample): the sweep loop sits inside a single try/catch,
so a failure while expiring request a prevents the equally stale request b
from being processed in that sweep; without the failure b is expired. -/
theorem sweepAbortsOnFailure :
    statusOf (checkAndProcessExpiredRequests ["a"]
      ⟨[⟨"a", "q1", "c1", .pending, 0, none, none, none⟩,
        ⟨"b", "q2", "c2", .pending, 0, none, none, none⟩], [], 5, [], [], [], []⟩
      (HELP_REQUEST_TIMEOUT_MS + 1)).requests "b" = some .pending
    ∧ statusOf (checkAndProcessExpiredRequests []
      ⟨[⟨"a", "q1", "c1", .pending, 0, none, none, none⟩,
        ⟨"b", "q2", "c2", .pending, 0, none, none, none⟩], [], 5, [], [], [], []⟩
      (HELP_REQUEST_TIMEOUT_MS + 1)).requests "b" = some .unresolved := by decide

/-- Claim C1 (counterexample): with the dedup ledger already marking
(c1, r1) as sent (the mark is 150 ms old, far inside the thirty-minute
retention window), the `POST /supervisor-response` poll route still returns
the full stored answer for c1: a second full delivery after the mark. -/
theorem pollRouteRedeliversAfterMark :
    hasSentSupervisorResponse
      ⟨[⟨"r1", "q", "c1", .resolved, 0, some 100, some "ANS", none⟩], [], 5, [],
        [("c1", "r1", 50)], ["r1"], []⟩ "c1" "r1" = true
    ∧ (supervisorResponseRoute
      ⟨[⟨"r1", "q", "c1", .resolved, 0, some 100, some "ANS", none⟩], [], 5, [],
        [("c1", "r1", 50)], ["r1"], []⟩ "c1" 200).fullAnswer = some "ANS"
    ∧ 200 - 50 < 30 * 60 * 1000 := by decide

/-- Claim C2: after a first successful `resolve(id, a1)`, a second
`resolve(id, a2)` returns the non-fatal `alreadyResolved` marker, leaves the
stored answer `a1` and the resolution timestamp unchanged, and performs no
new store mutation (requests and knowledge entries are untouched). -/
theorem resolveIdempotentSecondCall (st : SysState) (id a1 a2 : String) (t1 t2 : Nat)
    (h : (resolveHelpRequest st id a1 t1).2 = .resolvedOk) :
    (resolveHelpRequest (resolveHelpRequest st id a1 t1).1 id a2 t2).2 = .alreadyResolved
    ∧ (resolveHelpRequest (resolveHelpRequest st id a1 t1).1 id a2 t2).1.requests
        = (resolveHelpRequest st id a1 t1).1.requests
    ∧ (resolveHelpRequest (resolveHelpRequest st id a1 t1).1 id a2 t2).1.kbEntries
        = (resolveHelpRequest st id a1 t1).1.kbEntries
    ∧ answerOf (resolveHelpRequest st id a1 t1).1.requests id = some a1
    ∧ resolvedAtOf (resolveHelpRequest st id a1 t1).1.requests id = some t1
    ∧ answerOf (resolveHelpRequest (resolveHelpRequest st id a1 t1).1 id a2 t2).1.requests id
        = some a1 := by
  by_cases hc : id ∈ st.sentSupervisorResponses
  · exfalso
    simp [resolveHelpRequest, hc] at h
  · cases hf : st.requests.find? (fun r => r.id == id) with
    | none =>
      exfalso
      simp [resolveHelpRequest, hc, hf] at h
    | some r =>
      by_cases hs : r.status = HelpRequestStatus.resolved
      · exfalso
        simp [resolveHelpRequest, hc, hf, hs] at h
      · have hval : resolveHelpRequest st id a1 t1 =
            ({ st with
                requests := updateById
                  (updateById st.requests id (fun rr =>
                    { rr with
                        status := .resolved
                        resolvedAt := some t1
                        supervisorResponse := some a1 })) id
                  (fun rr => { rr with knowledgeBaseEntryId := some (freshKbId (st.nextId)) })
                kbEntries := st.kbEntries ++
                  [{ id := freshKbId st.nextId, question := r.question, answer := a1,
                     source := "supervisor", createdAt := t1 }]
                nextId := st.nextId + 1 }, .resolvedOk) := by
          simp [resolveHelpRequest, hc, hf, hs]
        have e1 := find?_updateById
          (updateById st.requests id (fun rr =>
            { rr with status := .resolved, resolvedAt := some t1, supervisorResponse := some a1 }))
          id (fun rr => { rr with knowledgeBaseEntryId := some (freshKbId st.nextId) })
          (fun _ => rfl)
        have e2 := find?_updateById st.requests id (fun rr =>
            { rr with status := .resolved, resolvedAt := some t1, supervisorResponse := some a1 })
          (fun _ => rfl)
        rw [hval]
        refine ⟨?_, ?_, ?_, ?_, ?_, ?_⟩ <;>
          simp [resolveHelpRequest, answerOf, resolvedAtOf, e1, e2, hf, hc]

/-- Witness for C2 at a concrete input: one pending request, resolved with
answer A at time 10, then resolved again with answer B at time 20. -/
theorem resolveIdempotentSecondCallWitness :
    (resolveHelpRequest (resolveHelpRequest
        ⟨[⟨"r1", "q", "c1", .pending, 0, none, none, none⟩], [], 5, [], [], [], []⟩
        "r1" "A" 10).1 "r1" "B" 20).2 = .alreadyResolved
    ∧ (resolveHelpRequest (resolveHelpRequest
        ⟨[⟨"r1", "q", "c1", .pending, 0, none, none, none⟩], [], 5, [], [], [], []⟩
        "r1" "A" 10).1 "r1" "B" 20).1.requests
      = (resolveHelpRequest
        ⟨[⟨"r1", "q", "c1", .pending, 0, none, none, none⟩], [], 5, [], [], [], []⟩
        "r1" "A" 10).1.requests
    ∧ (resolveHelpRequest (resolveHelpRequest
        ⟨[⟨"r1", "q", "c1", .pending, 0, none, none, none⟩], [], 5, [], [], [], []⟩
        "r1" "A" 10).1 "r1" "B" 20).1.kbEntries
      = (resolveHelpRequest
        ⟨[⟨"r1", "q", "c1", .pending, 0, none, none, none⟩], [], 5, [], [], [], []⟩
        "r1" "A" 10).1.kbEntries
    ∧ answerOf (resolveHelpRequest
        ⟨[⟨"r1", "q", "c1", .pending, 0, none, none, none⟩], [], 5, [], [], [], []⟩
        "r1" "A" 10).1.requests "r1" = some "A"
    ∧ resolvedAtOf (resolveHelpRequest
        ⟨[⟨"r1", "q", "c1", .pending, 0, none, none, none⟩], [], 5, [], [], [], []⟩
        "r1" "A" 10).1.requests "r1" = some 10
    ∧ answerOf (resolveHelpRequest (resolveHelpRequest
        ⟨[⟨"r1", "q", "c1", .pending, 0, none, none, none⟩], [], 5, [], [], [], []⟩
        "r1" "A" 10).1 "r1" "B" 20).1.requests "r1" = some "A" :=
  resolveIdempotentSecondCall
    ⟨[⟨"r1", "q", "c1", .pending, 0, none, none, none⟩], [], 5, [], [], [], []⟩
    "r1" "A" "B" 10 20 (by decide)

theorem statusOf_markAsExpired_ne (st : SysState) (id id' : String) (now : Nat)
    (h : id ≠ id') :
    statusOf (markAsExpired st id' now).1.requests id = statusOf st.requests id := by
  unfold markAsExpired
  cases hf : st.requests.find? (fun r => r.id == id') with
  | none => rfl
  | some r =>
    by_cases hp : r.status = HelpRequestStatus.pending
    · unfold statusOf
      simp only [hp, beq_self_eq_true, if_true]
      rw [find?_updateById_ne st.requests id id'
        (fun rr => { rr with status := HelpRequestStatus.unresolved, resolvedAt := some now })
        (fun _ => rfl) h]
    · simp [hp]

theorem statusOf_markAsExpired_self (st : SysState) (id : String) (now : Nat)
    (h : statusOf st.requests id = some .pending) :
    statusOf (markAsExpired st id now).1.requests id = some .unresolved := by
  unfold statusOf at h
  cases hf : st.requests.find? (fun r => r.id == id) with
  | none => rw [hf] at h; cases h
  | some r =>
    rw [hf] at h
    have hp : r.status = HelpRequestStatus.pending := by simpa using h
    unfold markAsExpired statusOf
    rw [hf]
    simp only [hp, beq_self_eq_true, if_true]
    rw [find?_updateById st.requests id
      (fun rr => { rr with status := HelpRequestStatus.unresolved, resolvedAt := some now })
      (fun _ => rfl), hf]
    rfl

theorem expireLoop_cons_nofail (now : Nat) (a : String) (l : List String) (st : SysState) :
    expireLoop [] now (a :: l) st = expireLoop [] now l (markAsExpired st a now).1 := rfl

theorem statusOf_expireLoop_not_mem (fails : List String) (now : Nat)
    (l : List String) (st : SysState) (id : String) (h : ¬ id ∈ l) :
    statusOf (expireLoop fails now l st).requests id = statusOf st.requests id := by
  induction l generalizing st with
  | nil => rfl
  | cons a l ih =>
    have hna : id ≠ a := fun he => h (he ▸ List.mem_cons_self a l)
    have hnl : ¬ id ∈ l := fun he => h (List.mem_cons_of_mem a he)
    unfold expireLoop
    cases hfa : fails.contains a with
    | true => simp [hfa]
    | false =>
      simp only [hfa, Bool.false_eq_true, if_false]
      rw [ih _ hnl, statusOf_markAsExpired_ne _ _ _ _ hna]

theorem expireLoop_append_nofail (now : Nat) (l1 l2 : List String) (st : SysState) :
    expireLoop [] now (l1 ++ l2) st = expireLoop [] now l2 (expireLoop [] now l1 st) := by
  induction l1 generalizing st with
  | nil => rfl
  | cons a l ih =>
    rw [List.cons_append, expireLoop_cons_nofail, expireLoop_cons_nofail, ih]

theorem mem_eq_of_find?_nodup (l : List HelpRequest) (id : String) (r r' : HelpRequest)
    (hn : (l.map (fun x => x.id)).Nodup) (hf : l.find? (fun x => x.id == id) = some r)
    (hm : r' ∈ l) (hid : r'.id = id) : r' = r := by
  induction l with
  | nil => cases hm
  | cons a l ih =>
    rw [List.map_cons] at hn
    have hn1 : ¬ a.id ∈ l.map (fun x => x.id) := (List.nodup_cons.mp hn).1
    have hn2 : (l.map (fun x => x.id)).Nodup := (List.nodup_cons.mp hn).2
    by_cases ha : a.id = id
    · have hra : r = a := by
        rw [List.find?_cons_of_pos _ (by simpa using ha)] at hf
        exact (Option.some.inj hf).symm
      rcases List.mem_cons.mp hm with h1 | h2
      · rw [h1, hra]
      · exfalso
        have hmem : r'.id ∈ l.map (fun x => x.id) := List.mem_map_of_mem _ h2
        rw [hid, ← ha] at hmem
        exact hn1 hmem
    · rw [List.find?_cons_of_neg _ (by simpa using ha)] at hf
      rcases List.mem_cons.mp hm with h1 | h2
      · exact absurd (h1 ▸ hid) ha
      · exact ih hn2 hf h2

theorem statusOf_rawExpire_ne (st : SysState) (id id' : String) (now : Nat)
    (h : id ≠ id') :
    statusOf (rawExpire st id' now).requests id = statusOf st.requests id := by
  unfold rawExpire statusOf
  rw [find?_updateById_ne st.requests id id'
    (fun rr => { rr with status := HelpRequestStatus.unresolved, resolvedAt := some now })
    (fun _ => rfl) h]

theorem statusOf_rawExpire_self (st : SysState) (id : String) (now : Nat) (r : HelpRequest)
    (hf : st.requests.find? (fun x => x.id == id) = some r) :
    statusOf (rawExpire st id now).requests id = some .unresolved := by
  unfold rawExpire statusOf
  rw [find?_updateById st.requests id
    (fun rr => { rr with status := HelpRequestStatus.unresolved, resolvedAt := some now })
    (fun _ => rfl), hf]
  rfl

theorem statusOf_rawExpireLoop_not_mem (now : Nat) (l : List String) (st : SysState)
    (id : String) (h : ¬ id ∈ l) :
    statusOf (rawExpireLoop now l st).requests id = statusOf st.requests id := by
  induction l generalizing st with
  | nil => rfl
  | cons a l ih =>
    have hna : id ≠ a := fun he => h (he ▸ List.mem_cons_self a l)
    have hnl : ¬ id ∈ l := fun he => h (List.mem_cons_of_mem a he)
    unfold rawExpireLoop
    rw [ih _ hnl, statusOf_rawExpire_ne _ _ _ _ hna]

theorem rawExpireLoop_append (now : Nat) (l1 l2 : List String) (st : SysState) :
    rawExpireLoop now (l1 ++ l2) st = rawExpireLoop now l2 (rawExpireLoop now l1 st) := by
  induction l1 generalizing st with
  | nil => rfl
  | cons a l ih =>
    rw [List.cons_append]
    show rawExpireLoop now (l ++ l2) (rawExpire st a now) = _
    rw [ih]
    rfl

theorem rawExpireLoop_cons (now : Nat) (a : String) (l : List String) (st : SysState) :
    rawExpireLoop now (a :: l) st = rawExpireLoop now l (rawExpire st a now) := rfl


/-- Claim C8 (amended): each timeout worker expires a pending request
created at T exactly when its sweep runs strictly after T plus that
worker's own threshold while the request is still pending: strictly after
T + 30 minutes for `checkAndProcessExpiredRequests`, and strictly after
T + timeoutMinutes * 60 s (default 5 minutes, since the env override is
unset in this repository) for each every-minute `startTimeoutWorker` tick —
so the running system in fact expires a pending request about five to six
minutes after creation, long before T + 30 minutes. -/
theorem sweepExpiresIffStrictlyStale (st : SysState) (id : String) (r : HelpRequest)
    (now tm : Nat)
    (hn : (st.requests.map (fun x => x.id)).Nodup)
    (hf : st.requests.find? (fun x => x.id == id) = some r)
    (hp : r.status = .pending) :
    statusOf (checkAndProcessExpiredRequests [] st now).requests id
      = some (if r.createdAt + HELP_REQUEST_TIMEOUT_MS < now
          then HelpRequestStatus.unresolved else HelpRequestStatus.pending)
    ∧ statusOf (startTimeoutWorkerTick tm st now).requests id
      = some (if r.createdAt + tm * 60 * 1000 < now
          then HelpRequestStatus.unresolved else HelpRequestStatus.pending) := by
  have hrid : r.id = id := by simpa using List.find?_some hf
  have hstat : statusOf st.requests id = some .pending := by
    unfold statusOf
    rw [hf]
    simp [hp]
  constructor
  · by_cases hstale : r.createdAt + HELP_REQUEST_TIMEOUT_MS < now
    · have hmemr : r ∈ st.requests := List.mem_of_find?_eq_some hf
      have hcond : (r.status == HelpRequestStatus.pending
          && decide (r.createdAt < now - HELP_REQUEST_TIMEOUT_MS)) = true := by
        simp only [hp, beq_self_eq_true, Bool.true_and, decide_eq_true_eq]
        omega
      have hmem : id ∈ staleRequestIds st.requests now := by
        unfold staleRequestIds
        rw [← hrid]
        exact List.mem_map_of_mem _ (List.mem_filter.mpr ⟨hmemr, hcond⟩)
      have hnd : (staleRequestIds st.requests now).Nodup := by
        unfold staleRequestIds
        exact hn.sublist ((List.filter_sublist _).map _)
      obtain ⟨s, t, hst⟩ := List.append_of_mem hmem
      rw [hst] at hnd
      have hids : ¬ id ∈ s := by
        have hd := List.disjoint_of_nodup_append hnd
        intro hmem2
        exact hd hmem2 (List.mem_cons_self id t)
      have hidt : ¬ id ∈ t := by
        have := (List.nodup_append.mp hnd).2.1
        exact (List.nodup_cons.mp this).1
      unfold checkAndProcessExpiredRequests
      rw [hst, expireLoop_append_nofail, expireLoop_cons_nofail]
      rw [statusOf_expireLoop_not_mem _ _ _ _ _ hidt]
      rw [statusOf_markAsExpired_self]
      · rw [if_pos hstale]
      · rw [statusOf_expireLoop_not_mem _ _ _ _ _ hids]
        exact hstat
    · have hnotmem : ¬ id ∈ staleRequestIds st.requests now := by
        intro hmem
        unfold staleRequestIds at hmem
        obtain ⟨r', hr'mem, hr'id⟩ := List.mem_map.mp hmem
        have hr'filter := List.mem_filter.mp hr'mem
        have heq : r' = r := mem_eq_of_find?_nodup st.requests id r r' hn hf hr'filter.1 hr'id
        have hcond := hr'filter.2
        rw [heq] at hcond
        simp only [hp, beq_self_eq_true, Bool.true_and, decide_eq_true_eq] at hcond
        omega
      unfold checkAndProcessExpiredRequests
      rw [statusOf_expireLoop_not_mem _ _ _ _ _ hnotmem, hstat, if_neg hstale]
  · by_cases hstale : r.createdAt + tm * 60 * 1000 < now
    · have hmemr : r ∈ st.requests := List.mem_of_find?_eq_some hf
      have hcond : (r.status == HelpRequestStatus.pending
          && decide (r.createdAt < now - tm * 60 * 1000)) = true := by
        simp only [hp, beq_self_eq_true, Bool.true_and, decide_eq_true_eq]
        omega
      have hmem : id ∈ workerStaleIds tm st.requests now := by
        unfold workerStaleIds
        rw [← hrid]
        exact List.mem_map_of_mem _ (List.mem_filter.mpr ⟨hmemr, hcond⟩)
      have hnd : (workerStaleIds tm st.requests now).Nodup := by
        unfold workerStaleIds
        exact hn.sublist ((List.filter_sublist _).map _)
      obtain ⟨s, t, hst⟩ := List.append_of_mem hmem
      rw [hst] at hnd
      have hids : ¬ id ∈ s := by
        have hd := List.disjoint_of_nodup_append hnd
        intro hmem2
        exact hd hmem2 (List.mem_cons_self id t)
      have hidt : ¬ id ∈ t := by
        have := (List.nodup_append.mp hnd).2.1
        exact (List.nodup_cons.mp this).1
      unfold startTimeoutWorkerTick
      rw [hst, rawExpireLoop_append, rawExpireLoop_cons]
      rw [statusOf_rawExpireLoop_not_mem _ _ _ _ hidt]
      have hpend : statusOf (rawExpireLoop now s st).requests id = some .pending := by
        rw [statusOf_rawExpireLoop_not_mem _ _ _ _ hids]
        exact hstat
      obtain ⟨r2, hr2⟩ : ∃ r2, (rawExpireLoop now s st).requests.find?
          (fun x => x.id == id) = some r2 := by
        unfold statusOf at hpend
        cases hf2 : (rawExpireLoop now s st).requests.find? (fun x => x.id == id) with
        | none => rw [hf2] at hpend; cases hpend
        | some r2 => exact ⟨r2, rfl⟩
      rw [statusOf_rawExpire_self _ _ _ _ hr2, if_pos hstale]
    · have hnotmem : ¬ id ∈ workerStaleIds tm st.requests now := by
        intro hmem
        unfold workerStaleIds at hmem
        obtain ⟨r', hr'mem, hr'id⟩ := List.mem_map.mp hmem
        have hr'filter := List.mem_filter.mp hr'mem
        have heq : r' = r := mem_eq_of_find?_nodup st.requests id r r' hn hf hr'filter.1 hr'id
        have hcond := hr'filter.2
        rw [heq] at hcond
        simp only [hp, beq_self_eq_true, Bool.true_and, decide_eq_true_eq] at hcond
        omega
      unfold startTimeoutWorkerTick
      rw [statusOf_rawExpireLoop_not_mem _ _ _ _ hnotmem, hstat, if_neg hstale]

theorem expireLoop_eq_takeWhile (fails : List String) (now : Nat) (l : List String)
    (st : SysState) :
    expireLoop fails now l st
      = expireLoop [] now (l.takeWhile (fun i => !(fails.contains i))) st := by
  induction l generalizing st with
  | nil => rfl
  | cons a l ih =>
    by_cases hfa : a ∈ fails
    · unfold expireLoop
      simp [hfa, List.takeWhile_cons]
    · unfold expireLoop
      simp [hfa, List.takeWhile_cons, ih]

/-- Claim C9 (amended): a sweep with failing updates expires exactly the
stale requests strictly before the first failing one (the loop shares one
try/catch, so the first throw ends the sweep; the function still returns
normally), and every request outside that prefix keeps its status. -/
theorem sweepProcessesUntilFirstFailure (fails : List String) (st : SysState) (now : Nat) :
    checkAndProcessExpiredRequests fails st now
      = expireLoop [] now ((staleRequestIds st.requests now).takeWhile
          (fun i => !(fails.contains i))) st
    ∧ ∀ id, ¬ id ∈ (staleRequestIds st.requests now).takeWhile (fun i => !(fails.contains i)) →
        statusOf (checkAndProcessExpiredRequests fails st now).requests id
          = statusOf st.requests id := by
  constructor
  · unfold checkAndProcessExpiredRequests
    exact expireLoop_eq_takeWhile fails now _ st
  · intro id hid
    unfold checkAndProcessExpiredRequests
    rw [expireLoop_eq_takeWhile]
    exact statusOf_expireLoop_not_mem _ _ _ _ _ hid

/-- Witness for C9 at a concrete input: with request a failing, request b is
outside the processed prefix and keeps its status. -/
theorem sweepProcessesUntilFirstFailureWitness :
    statusOf (checkAndProcessExpiredRequests ["a"]
      ⟨[⟨"a", "q1", "c1", .pending, 0, none, none, none⟩,
        ⟨"b", "q2", "c2", .pending, 0, none, none, none⟩], [], 5, [], [], [], []⟩
      (HELP_REQUEST_TIMEOUT_MS + 1)).requests "b"
      = statusOf [(⟨"a", "q1", "c1", .pending, 0, none, none, none⟩ : HelpRequest),
        ⟨"b", "q2", "c2", .pending, 0, none, none, none⟩] "b" :=
  (sweepProcessesUntilFirstFailure ["a"]
    ⟨[⟨"a", "q1", "c1", .pending, 0, none, none, none⟩,
      ⟨"b", "q2", "c2", .pending, 0, none, none, none⟩], [], 5, [], [], [], []⟩
    (HELP_REQUEST_TIMEOUT_MS + 1)).2 "b" (by decide)

/-- Witness for C8 at a concrete input: a pending request created at 0,
both workers sweeping at 360000 ms (six minutes): the thirty-minute sweep
leaves it pending while the default-threshold worker tick expires it. -/
theorem sweepExpiresIffStrictlyStaleWitness :
    statusOf (checkAndProcessExpiredRequests []
      ⟨[⟨"r1", "q", "c1", .pending, 0, none, none, none⟩], [], 5, [], [], [], []⟩
      360000).requests "r1"
      = some (if 0 + HELP_REQUEST_TIMEOUT_MS < 360000
          then HelpRequestStatus.unresolved else HelpRequestStatus.pending)
    ∧ statusOf (startTimeoutWorkerTick DEFAULT_TIMEOUT_MINUTES
      ⟨[⟨"r1", "q", "c1", .pending, 0, none, none, none⟩], [], 5, [], [], [], []⟩
      360000).requests "r1"
      = some (if 0 + DEFAULT_TIMEOUT_MINUTES * 60 * 1000 < 360000
          then HelpRequestStatus.unresolved else HelpRequestStatus.pending) :=
  sweepExpiresIffStrictlyStale
    ⟨[⟨"r1", "q", "c1", .pending, 0, none, none, none⟩], [], 5, [], [], [], []⟩
    "r1" ⟨"r1", "q", "c1", .pending, 0, none, none, none⟩ 360000 DEFAULT_TIMEOUT_MINUTES
    (by decide) (by decide) (by decide)

theorem statusOf_resolve_ne (st : SysState) (id id' ans : String) (now : Nat)
    (hne : id ≠ id') :
    statusOf (resolveHelpRequest st id' ans now).1.requests id
      = statusOf st.requests id := by
  by_cases hc : id' ∈ st.sentSupervisorResponses
  · simp [resolveHelpRequest, hc]
  · cases hf : st.requests.find? (fun r => r.id == id') with
    | none => simp [resolveHelpRequest, hc, hf]
    | some r =>
      by_cases hs : r.status = HelpRequestStatus.resolved
      · simp [resolveHelpRequest, hc, hf, hs]
      · have hval : resolveHelpRequest st id' ans now =
            ({ st with
                requests := updateById
                  (updateById st.requests id' (fun rr =>
                    { rr with
                        status := .resolved
                        resolvedAt := some now
                        supervisorResponse := some ans })) id'
                  (fun rr => { rr with knowledgeBaseEntryId := some (freshKbId (st.nextId)) })
                kbEntries := st.kbEntries ++
                  [{ id := freshKbId st.nextId, question := r.question, answer := ans,
                     source := "supervisor", createdAt := now }]
                nextId := st.nextId + 1 }, .resolvedOk) := by
          simp [resolveHelpRequest, hc, hf, hs]
        rw [hval]
        unfold statusOf
        rw [find?_updateById_ne _ _ _
            (fun rr => { rr with knowledgeBaseEntryId := some (freshKbId st.nextId) })
            (fun _ => rfl) hne,
          find?_updateById_ne _ _ _
            (fun rr => { rr with
                status := HelpRequestStatus.resolved
                resolvedAt := some now
                supervisorResponse := some ans })
            (fun _ => rfl) hne]

theorem statusOf_resolve_self_resolved (st : SysState) (id ans : String) (now : Nat)
    (h : statusOf st.requests id = some .resolved) :
    statusOf (resolveHelpRequest st id ans now).1.requests id = some .resolved := by
  unfold statusOf at h
  cases hf : st.requests.find? (fun r => r.id == id) with
  | none => rw [hf] at h; cases h
  | some r =>
    rw [hf] at h
    have hs : r.status = HelpRequestStatus.resolved := by simpa using h
    by_cases hc : id ∈ st.sentSupervisorResponses
    · simp [resolveHelpRequest, hc, statusOf, hf, hs]
    · simp [resolveHelpRequest, hc, hf, hs, statusOf]

theorem statusOf_resolve_self_unresolved (st : SysState) (id ans : String) (now : Nat)
    (h : statusOf st.requests id = some .unresolved) :
    statusOf (resolveHelpRequest st id ans now).1.requests id = some .unresolved
    ∨ statusOf (resolveHelpRequest st id ans now).1.requests id = some .resolved := by
  unfold statusOf at h
  cases hf : st.requests.find? (fun r => r.id == id) with
  | none => rw [hf] at h; cases h
  | some r =>
    rw [hf] at h
    have hs : r.status = HelpRequestStatus.unresolved := by simpa using h
    by_cases hc : id ∈ st.sentSupervisorResponses
    · left
      simp [resolveHelpRequest, hc, statusOf, hf, hs]
    · right
      have hsr : ¬ r.status = HelpRequestStatus.resolved := by simp [hs]
      have hval : resolveHelpRequest st id ans now =
          ({ st with
              requests := updateById
                (updateById st.requests id (fun rr =>
                  { rr with
                      status := .resolved
                      resolvedAt := some now
                      supervisorResponse := some ans })) id
                (fun rr => { rr with knowledgeBaseEntryId := some (freshKbId (st.nextId)) })
              kbEntries := st.kbEntries ++
                [{ id := freshKbId st.nextId, question := r.question, answer := ans,
                   source := "supervisor", createdAt := now }]
              nextId := st.nextId + 1 }, .resolvedOk) := by
        simp [resolveHelpRequest, hc, hf, hsr]
      rw [hval]
      unfold statusOf
      rw [find?_updateById _ _
          (fun rr => { rr with knowledgeBaseEntryId := some (freshKbId st.nextId) })
          (fun _ => rfl),
        find?_updateById _ _
          (fun rr => { rr with
              status := HelpRequestStatus.resolved
              resolvedAt := some now
              supervisorResponse := some ans })
          (fun _ => rfl), hf]
      rfl

theorem statusOf_markAsExpired_nonpending (st : SysState) (id : String) (now : Nat)
    (s : HelpRequestStatus) (h : statusOf st.requests id = some s)
    (hs : s ≠ .pending) :
    statusOf (markAsExpired st id now).1.requests id = some s := by
  unfold statusOf at h
  cases hf : st.requests.find? (fun r => r.id == id) with
  | none => rw [hf] at h; cases h
  | some r =>
    rw [hf] at h
    have hrs : r.status = s := by simpa using h
    have hnp : ¬ r.status = HelpRequestStatus.pending := by rw [hrs]; exact hs
    simp [markAsExpired, hf, hnp, statusOf, hrs, hs]

theorem statusOf_applyOp_resolved (st : SysState) (op : HROp) (id : String)
    (h : statusOf st.requests id = some .resolved) :
    statusOf (applyOp st op).requests id = some .resolved := by
  cases op with
  | opResolve id' ans now =>
    by_cases hne : id = id'
    · subst hne
      exact statusOf_resolve_self_resolved st id ans now h
    · unfold applyOp
      rw [statusOf_resolve_ne st id id' ans now hne]
      exact h
  | opExpire id' now =>
    by_cases hne : id = id'
    · subst hne
      exact statusOf_markAsExpired_nonpending st id now .resolved h (by simp)
    · unfold applyOp
      rw [statusOf_markAsExpired_ne st id id' now hne]
      exact h

/-- Claim C3 (amended): `resolved` is terminal — once a request is resolved,
no sequence of resolve/expire operations changes its status — but
`unresolved` is not: a single operation on an unresolved request either
leaves it unresolved or (via a late resolve, the only exit) makes it
resolved. -/
theorem resolvedTerminalAndTransitions (st : SysState) (id : String) :
    (∀ ops : List HROp, statusOf st.requests id = some .resolved →
        statusOf (applyOps st ops).requests id = some .resolved)
    ∧ (∀ op : HROp, statusOf st.requests id = some .unresolved →
        statusOf (applyOp st op).requests id = some .unresolved
        ∨ statusOf (applyOp st op).requests id = some .resolved) := by
  constructor
  · intro ops
    induction ops generalizing st with
    | nil => intro h; exact h
    | cons op ops ih =>
      intro h
      exact ih (applyOp st op) (statusOf_applyOp_resolved st op id h)
  · intro op h
    cases op with
    | opResolve id' ans now =>
      by_cases hne : id = id'
      · subst hne
        exact statusOf_resolve_self_unresolved st id ans now h
      · left
        unfold applyOp
        rw [statusOf_resolve_ne st id id' ans now hne]
        exact h
    | opExpire id' now =>
      by_cases hne : id = id'
      · subst hne
        left
        exact statusOf_markAsExpired_nonpending st id now .unresolved h (by simp)
      · left
        unfold applyOp
        rw [statusOf_markAsExpired_ne st id id' now hne]
        exact h

/-- Witness for C3 at a concrete input: a resolved request stays resolved
across a resolve and an expire, and an unresolved request steps to
unresolved-or-resolved under a resolve. -/
theorem resolvedTerminalAndTransitionsWitness :
    statusOf (applyOps
      ⟨[⟨"r1", "q", "c1", .resolved, 0, some 3, some "A", none⟩], [], 5, [], [], [], []⟩
      [.opResolve "r1" "B" 9, .opExpire "r1" 11]).requests "r1" = some .resolved
    ∧ (statusOf (applyOp
        ⟨[⟨"r2", "q", "c1", .unresolved, 0, some 3, none, none⟩], [], 5, [], [], [], []⟩
        (.opResolve "r2" "late" 9)).requests "r2" = some .unresolved
      ∨ statusOf (applyOp
        ⟨[⟨"r2", "q", "c1", .unresolved, 0, some 3, none, none⟩], [], 5, [], [], [], []⟩
        (.opResolve "r2" "late" 9)).requests "r2" = some .resolved) :=
  ⟨(resolvedTerminalAndTransitions
      ⟨[⟨"r1", "q", "c1", .resolved, 0, some 3, some "A", none⟩], [], 5, [], [], [], []⟩
      "r1").1 [.opResolve "r1" "B" 9, .opExpire "r1" 11] (by decide),
   (resolvedTerminalAndTransitions
      ⟨[⟨"r2", "q", "c1", .unresolved, 0, some 3, none, none⟩], [], 5, [], [], [], []⟩
      "r2").2 (.opResolve "r2" "late" 9) (by decide)⟩

theorem notSpecial_ne_checkCmd (m : String) (h : isSpecialMessage m = false) :
    (m == CHECK_SUPERVISOR_RESPONSES) = false := by
  cases hm : (m == CHECK_SUPERVISOR_RESPONSES) with
  | false => rfl
  | true =>
    exfalso
    have hmeq : m = CHECK_SUPERVISOR_RESPONSES := by simpa using hm
    subst hmeq
    exact absurd h (by decide)

theorem foldl_bestByResolvedAt_none (cond : HelpRequest → Bool) (l : List HelpRequest)
    (h : ∀ r ∈ l, cond r = false) :
    l.foldl (bestByResolvedAt cond) none = none := by
  induction l with
  | nil => rfl
  | cons a l ih =>
    rw [List.foldl_cons]
    have hstep : bestByResolvedAt cond none a = none := by
      unfold bestByResolvedAt
      rw [h a (List.mem_cons_self a l)]
      simp
    rw [hstep]
    exact ih (fun r hr => h r (List.mem_cons_of_mem a hr))

theorem recentAnswered_eq_none (reqs : List HelpRequest) (cid : String) (now : Nat)
    (h : ∀ r ∈ reqs, ¬ (r.callerId = cid ∧ r.status = .resolved)) :
    recentAnsweredResolvedFor reqs cid now = none := by
  unfold recentAnsweredResolvedFor
  apply foldl_bestByResolvedAt_none
  intro r hr
  by_cases h1 : r.callerId = cid
  · have h2 : ¬ r.status = HelpRequestStatus.resolved := fun hh => h r hr ⟨h1, hh⟩
    simp [h1, h2]
  · simp [h1]

theorem findAppendOfNone {α : Type} (p : α → Bool) (l1 l2 : List α)
    (h : l1.find? p = none) : (l1 ++ l2).find? p = l2.find? p := by
  induction l1 with
  | nil => rfl
  | cons a l ih =>
    rw [List.find?_cons] at h
    cases hp : p a with
    | true => rw [hp] at h; cases h
    | false =>
      rw [hp] at h
      rw [List.cons_append, List.find?_cons, hp]
      exact ih h

theorem handleMessage_escalates (st : SysState) (now : Nat) (m c : String)
    (hc : (c == "") = false)
    (hsp : isSpecialMessage m = false)
    (hq : isSupervisorResponseQuery m = false)
    (hnr : recentAnsweredResolvedFor st.requests (trimStr c) now = none)
    (hkb : knowledgeBaseGet st.knowledgeBase (toLowerStr m) = none)
    (hdb : findSimilarQuestion m st.kbEntries = none)
    (hnp : pendingExactFor st.requests (trimStr c) m = none) :
    handleMessage st now m (some c)
      = ⟨{ st with
            requests := st.requests ++
              [⟨freshRequestId st.nextId, m, trimStr c, .pending, now, none, none, none⟩]
            nextId := st.nextId + 1 },
          CHECKING_WITH_SUPERVISOR ++ "\x22" ++ m ++ "\x22 and get back to you.", none⟩ := by
  have hcmd := notSpecial_ne_checkCmd m hsp
  unfold handleMessage
  simp only [hc, Bool.false_eq_true, if_false, hcmd, hq, hnr]
  unfold knowledgeLookupAndEscalate
  simp only [hkb, hdb, hsp, hnp, Bool.not_false, if_true]
  unfold insertHelpRequest
  rfl

theorem handleMessage_waits (st : SysState) (now : Nat) (m c : String) (r : HelpRequest)
    (hc : (c == "") = false)
    (hsp : isSpecialMessage m = false)
    (hq : isSupervisorResponseQuery m = false)
    (hnr : recentAnsweredResolvedFor st.requests (trimStr c) now = none)
    (hkb : knowledgeBaseGet st.knowledgeBase (toLowerStr m) = none)
    (hdb : findSimilarQuestion m st.kbEntries = none)
    (hnp : pendingExactFor st.requests (trimStr c) m = some r) :
    handleMessage st now m (some c) = ⟨st, WAITING_FOR_SUPERVISOR, none⟩ := by
  have hcmd := notSpecial_ne_checkCmd m hsp
  unfold handleMessage
  simp only [hc, Bool.false_eq_true, if_false, hcmd, hq, hnr]
  unfold knowledgeLookupAndEscalate
  simp only [hkb, hdb, hsp, hnp, Bool.not_false, if_true]

/-- Claim C4: calling `handleMessage` twice with byte-identical escalating
text (no status-check pattern, no knowledge-base hit, no recent resolved
answer, no identical pending request) creates exactly one pending HelpRequest
for the (requester, text) pair: the first call inserts it and the second call
finds it, returns the waiting acknowledgment, and changes nothing. -/
theorem handleTwiceSinglePending (st : SysState) (t1 t2 : Nat) (m c : String)
    (hc : c ≠ "")
    (hsp : isSpecialMessage m = false)
    (hq : isSupervisorResponseQuery m = false)
    (hnr : ∀ r ∈ st.requests, ¬ (r.callerId = trimStr c ∧ r.status = .resolved))
    (hkb : knowledgeBaseGet st.knowledgeBase (toLowerStr m) = none)
    (hdb : findSimilarQuestion m st.kbEntries = none)
    (hnp : pendingExactFor st.requests (trimStr c) m = none) :
    countPendingExact (handleMessage st t1 m (some c)).state.requests (trimStr c) m = 1
    ∧ handleMessage (handleMessage st t1 m (some c)).state t2 m (some c)
        = ⟨(handleMessage st t1 m (some c)).state, WAITING_FOR_SUPERVISOR, none⟩ := by
  have hcb : (c == "") = false := by simpa using hc
  have hnr1 : recentAnsweredResolvedFor st.requests (trimStr c) t1 = none :=
    recentAnswered_eq_none _ _ _ hnr
  have h1 := handleMessage_escalates st t1 m c hcb hsp hq hnr1 hkb hdb hnp
  set newR : HelpRequest :=
    ⟨freshRequestId st.nextId, m, trimStr c, .pending, t1, none, none, none⟩ with hnewR
  have hpred : (fun r : HelpRequest =>
      r.callerId == trimStr c && r.status == HelpRequestStatus.pending && r.question == m) newR
      = true := by
    simp [hnewR]
  constructor
  · rw [h1]
    unfold countPendingExact
    show (List.filter _ (st.requests ++ [newR])).length = 1
    rw [List.filter_append]
    have hfe : List.filter (fun r : HelpRequest =>
        r.callerId == trimStr c && r.status == HelpRequestStatus.pending && r.question == m)
        st.requests = [] := by
      rw [List.filter_eq_nil]
      intro a ha
      have := List.find?_eq_none.mp hnp a ha
      simpa using this
    rw [hfe]
    simp [hpred]
  · rw [h1]
    have hnr2 : ∀ r ∈ st.requests ++ [newR], ¬ (r.callerId = trimStr c ∧ r.status = .resolved) := by
      intro r hr
      rcases List.mem_append.mp hr with h | h
      · exact hnr r h
      · have : r = newR := by simpa using h
        subst this
        rintro ⟨-, habs⟩
        simp [hnewR] at habs
    have hnr2' : recentAnsweredResolvedFor (st.requests ++ [newR]) (trimStr c) t2 = none :=
      recentAnswered_eq_none _ _ _ hnr2
    have hpend2 : pendingExactFor (st.requests ++ [newR]) (trimStr c) m = some newR := by
      unfold pendingExactFor at hnp ⊢
      rw [findAppendOfNone _ _ _ hnp]
      simp [hnewR]
    exact handleMessage_waits _ t2 m c newR hcb hsp hq hnr2' hkb hdb hpend2

/-- Witness for C4 at a concrete input: empty store and knowledge base,
message "Do you do perms?" from caller c1, called twice. -/
theorem handleTwiceSinglePendingWitness :
    countPendingExact (handleMessage ⟨[], [], 0, [], [], [], []⟩ 0 "Do you do perms?"
        (some "c1")).state.requests (trimStr "c1") "Do you do perms?" = 1
    ∧ handleMessage (handleMessage ⟨[], [], 0, [], [], [], []⟩ 0 "Do you do perms?"
        (some "c1")).state 5 "Do you do perms?" (some "c1")
      = ⟨(handleMessage ⟨[], [], 0, [], [], [], []⟩ 0 "Do you do perms?"
          (some "c1")).state, WAITING_FOR_SUPERVISOR, none⟩ :=
  handleTwiceSinglePending ⟨[], [], 0, [], [], [], []⟩ 0 5 "Do you do perms?" "c1"
    (by decide) (by decide) (by decide) (by decide) (by decide) (by decide) (by decide)

theorem knowledgeLookupAndEscalate_ledger (st : SysState) (now : Nat) (m : String)
    (oc : Option String) :
    (knowledgeLookupAndEscalate st now m oc).state.supervisorResponseCache
        = st.supervisorResponseCache
    ∧ (knowledgeLookupAndEscalate st now m oc).state.sentSupervisorResponses
        = st.sentSupervisorResponses
    ∧ (knowledgeLookupAndEscalate st now m oc).delivered = none := by
  unfold knowledgeLookupAndEscalate
  cases hkb : knowledgeBaseGet st.knowledgeBase (toLowerStr m) with
  | some a => exact ⟨rfl, rfl, rfl⟩
  | none =>
    cases hdb : findSimilarQuestion m st.kbEntries with
    | some a => exact ⟨rfl, rfl, rfl⟩
    | none =>
      cases oc with
      | none => exact ⟨rfl, rfl, rfl⟩
      | some c =>
        by_cases hsp : isSpecialMessage m
        · simp [hsp]
        · simp only [Bool.not_eq_true] at hsp
          simp only [hsp, Bool.not_false, if_true]
          cases hpe : pendingExactFor st.requests (trimStr c) m with
          | some r => exact ⟨rfl, rfl, rfl⟩
          | none => exact ⟨rfl, rfl, rfl⟩

theorem handleMessage_ledger (st : SysState) (now : Nat) (m : String)
    (c : Option String) :
    (handleMessage st now m c).state.sentSupervisorResponses = st.sentSupervisorResponses
    ∧ (((handleMessage st now m c).state.supervisorResponseCache = st.supervisorResponseCache
        ∧ (handleMessage st now m c).delivered = none)
      ∨ (∃ cc ii, (handleMessage st now m c).delivered = some (cc, ii)
          ∧ hasSentSupervisorResponse st cc ii = false
          ∧ (handleMessage st now m c).state.supervisorResponseCache
              = (cc, ii, now) :: st.supervisorResponseCache)) := by
  simp only [handleMessage]
  repeat' split
  all_goals
    first
      | exact ⟨rfl, Or.inl ⟨rfl, rfl⟩⟩
      | exact ⟨(knowledgeLookupAndEscalate_ledger st now m _).2.1,
          Or.inl ⟨(knowledgeLookupAndEscalate_ledger st now m _).1,
            (knowledgeLookupAndEscalate_ledger st now m _).2.2⟩⟩
      | (refine ⟨rfl, Or.inr ⟨_, _, rfl, ?_, rfl⟩⟩
         simp_all)

theorem dispatch_ledger (st : SysState) (id c ans : String) (pushOk : Bool) (now : Nat) :
    ((handleHelpRequestResolved st id c ans pushOk now).2 = true →
      st.sentSupervisorResponses.contains id = false
      ∧ (handleHelpRequestResolved st id c ans pushOk now).1.sentSupervisorResponses.contains id
          = true)
    ∧ (∀ i, st.sentSupervisorResponses.contains i = true →
        (handleHelpRequestResolved st id c ans pushOk now).1.sentSupervisorResponses.contains i
          = true)
    ∧ (∀ a b, hasSentSupervisorResponse st a b = true →
        hasSentSupervisorResponse (handleHelpRequestResolved st id c ans pushOk now).1 a b
          = true) := by
  unfold handleHelpRequestResolved
  repeat' split
  all_goals
    refine ⟨fun hp => ?_, fun i hi => ?_, fun a b hab => ?_⟩ <;>
      simp_all [markSupervisorResponseSent, hasSentSupervisorResponse, List.contains_cons]

theorem resolve_ledger (st : SysState) (id ans : String) (now : Nat) :
    (resolveHelpRequest st id ans now).1.supervisorResponseCache = st.supervisorResponseCache
    ∧ (∀ i, st.sentSupervisorResponses.contains i = true →
        (resolveHelpRequest st id ans now).1.sentSupervisorResponses.contains i = true) := by
  unfold resolveHelpRequest
  repeat' split
  all_goals
    refine ⟨rfl, fun i hi => ?_⟩ <;> simp_all [List.contains_cons]

theorem runStep_facts (st : SysState) (s : TraceStep) :
    (∀ i, (runStep st s).2.1 = some i →
        st.sentSupervisorResponses.contains i = false
        ∧ (runStep st s).1.sentSupervisorResponses.contains i = true)
    ∧ (∀ i, st.sentSupervisorResponses.contains i = true →
        (runStep st s).1.sentSupervisorResponses.contains i = true)
    ∧ (∀ a b, (runStep st s).2.2 = some (a, b) →
        hasSentSupervisorResponse st a b = false
        ∧ hasSentSupervisorResponse (runStep st s).1 a b = true)
    ∧ (∀ a b, hasSentSupervisorResponse st a b = true →
        hasSentSupervisorResponse (runStep st s).1 a b = true) := by
  cases s with
  | stepMessage now m c =>
    have h := handleMessage_ledger st now m c
    refine ⟨fun i hi => ?_, fun i hi => ?_, fun a b hab => ?_, fun a b hab => ?_⟩
    · exact absurd hi (by simp [runStep])
    · show (handleMessage st now m c).state.sentSupervisorResponses.contains i = true
      rw [h.1]
      exact hi
    · have hd : (handleMessage st now m c).delivered = some (a, b) := hab
      rcases h.2 with ⟨hcache, hnone⟩ | ⟨cc, ii, hdel, hsent, hcache⟩
      · rw [hnone] at hd
        cases hd
      · rw [hdel] at hd
        have hinj := Option.some.inj hd
        have hcc : cc = a := congrArg Prod.fst hinj
        have hii : ii = b := congrArg Prod.snd hinj
        subst hcc
        subst hii
        constructor
        · exact hsent
        · show ((handleMessage st now m c).state.supervisorResponseCache.any _) = true
          rw [hcache]
          simp [List.any_cons]
    · rcases h.2 with ⟨hcache, hnone⟩ | ⟨cc, ii, hdel, hsent, hcache⟩
      · show ((handleMessage st now m c).state.supervisorResponseCache.any _) = true
        rw [hcache]
        exact hab
      · show ((handleMessage st now m c).state.supervisorResponseCache.any _) = true
        rw [hcache]
        have hab2 : (st.supervisorResponseCache.any
            (fun e => e.1 == a && e.2.1 == b)) = true := hab
        simp [List.any_cons, hab2]
  | stepResolvedEvent now id c ans ok =>
    have h := dispatch_ledger st id c ans ok now
    refine ⟨fun i hi => ?_, fun i hi => ?_, fun a b hab => ?_, fun a b hab => ?_⟩
    · have hp : (if (handleHelpRequestResolved st id c ans ok now).2 then
          some id else none) = some i := hi
      by_cases hatt : (handleHelpRequestResolved st id c ans ok now).2 = true
      · rw [hatt] at hp
        simp at hp
        subst hp
        exact h.1 hatt
      · simp only [Bool.not_eq_true] at hatt
        rw [hatt] at hp
        simp at hp
    · exact h.2.1 i hi
    · exact absurd hab (by simp [runStep])
    · exact h.2.2 a b hab
  | stepResolve now id ans =>
    have h := resolve_ledger st id ans now
    refine ⟨fun i hi => ?_, fun i hi => ?_, fun a b hab => ?_, fun a b hab => ?_⟩
    · exact absurd hi (by simp [runStep])
    · exact h.2 i hi
    · exact absurd hab (by simp [runStep])
    · show ((resolveHelpRequest st id ans now).1.supervisorResponseCache.any _) = true
      rw [h.1]
      exact hab

theorem countPushes_eq_zero (id0 : String) (t : List TraceStep) :
    ∀ st : SysState, st.sentSupervisorResponses.contains id0 = true →
      countPushes id0 st t = 0 := by
  induction t with
  | nil => intro st h; rfl
  | cons s rest ih =>
    intro st h
    have hfacts := runStep_facts st s
    rcases hrs : runStep st s with ⟨st', p, d⟩
    rw [hrs] at hfacts
    simp only [countPushes, hrs]
    have htail : countPushes id0 st' rest = 0 := ih st' (hfacts.2.1 id0 h)
    cases p with
    | none => simp [htail]
    | some i =>
      by_cases hii : i = id0
      · subst hii
        exact absurd h (by simpa using (hfacts.1 i rfl).1)
      · simp [hii, htail]

theorem countPushes_le_one (id0 : String) (t : List TraceStep) :
    ∀ st : SysState, countPushes id0 st t ≤ 1 := by
  induction t with
  | nil => intro st; exact Nat.zero_le 1
  | cons s rest ih =>
    intro st
    have hfacts := runStep_facts st s
    rcases hrs : runStep st s with ⟨st', p, d⟩
    rw [hrs] at hfacts
    simp only [countPushes, hrs]
    cases p with
    | none => simpa using ih st'
    | some i =>
      by_cases hii : i = id0
      · subst hii
        have hz : countPushes i st' rest = 0 :=
          countPushes_eq_zero i rest st' (hfacts.1 i rfl).2
        simp [hz]
      · simpa [hii] using ih st'

theorem countAgentDeliveries_eq_zero (c0 id0 : String) (t : List TraceStep) :
    ∀ st : SysState, hasSentSupervisorResponse st c0 id0 = true →
      countAgentDeliveries c0 id0 st t = 0 := by
  induction t with
  | nil => intro st h; rfl
  | cons s rest ih =>
    intro st h
    have hfacts := runStep_facts st s
    rcases hrs : runStep st s with ⟨st', p, d⟩
    rw [hrs] at hfacts
    simp only [countAgentDeliveries, hrs]
    have htail : countAgentDeliveries c0 id0 st' rest = 0 :=
      ih st' (hfacts.2.2.2 c0 id0 h)
    cases d with
    | none => simp [htail]
    | some ab =>
      by_cases hab : ab = (c0, id0)
      · subst hab
        exact absurd h (by simpa using (hfacts.2.2.1 c0 id0 rfl).1)
      · simp [hab, htail]

theorem countAgentDeliveries_le_one (c0 id0 : String) (t : List TraceStep) :
    ∀ st : SysState, countAgentDeliveries c0 id0 st t ≤ 1 := by
  induction t with
  | nil => intro st; exact Nat.zero_le 1
  | cons s rest ih =>
    intro st
    have hfacts := runStep_facts st s
    rcases hrs : runStep st s with ⟨st', p, d⟩
    rw [hrs] at hfacts
    simp only [countAgentDeliveries, hrs]
    cases d with
    | none => simpa using ih st'
    | some ab =>
      by_cases hab : ab = (c0, id0)
      · subst hab
        have hz : countAgentDeliveries c0 id0 st' rest = 0 :=
          countAgentDeliveries_eq_zero c0 id0 rest st' (hfacts.2.2.1 c0 id0 rfl).2
        simp [hz]
      · simpa [hab] using ih st'

/-- Claim C1 (amended): the two dedup ledgers give at-most-once on the paths
they guard — along any sequential trace of messages, dispatcher events and
resolve calls, the dispatcher attempts the room push at most once per
help-request id, and the message-handling paths deliver the full answer at
most once per (requesterId, id) pair. The poll routes are not guarded and
can re-deliver (see the counterexample). -/
theorem dedupLedgersAtMostOnce (st : SysState) (trace : List TraceStep)
    (c0 id0 : String) :
    countPushes id0 st trace ≤ 1 ∧ countAgentDeliveries c0 id0 st trace ≤ 1 :=
  ⟨countPushes_le_one id0 trace st, countAgentDeliveries_le_one c0 id0 trace st⟩
